import Mathlib

/-!
# eslam: particle filter resampling and the embodied SLAM orchestrator

A shallow embedding of `src/src/ParticleFilter.hpp`, `src/eslam/Configuration.hpp`
and `src/eslam/EmbodiedSlamFilter.cpp`.

Conventions of the embedding

* A C++ `double` is an element of a linearly ordered field `R` with exact
  arithmetic; concrete runs use `ℚ`.
* A `std::vector` is a `List`; `push_back` appends at the end.
* Mutable objects are passed and returned explicitly.
* Library code that is not part of the repository (boost random, Eigen, envire,
  the odometry and pose estimator collaborators) enters as parameters; the
  boost engine `minstd_rand` is also given concretely so that runs can be
  evaluated.
-/

namespace eslam

/-! ## `ParticleFilter.hpp` -/

/-- The struct `ParticleFilter<State_>::Particle`: a state `x` and a weight `w`. -/
structure Particle (State R : Type) where
  x : State
  w : R
deriving DecidableEq, Repr

/-- The class `ParticleFilter<State_>`: the particle vector `xi_k` and the random engine
`rand_gen` (engine state of type `G`).  The member `particleCount` is never
read or written by the class and is left out. -/
structure ParticleFilter (State R G : Type) where
  xi_k : List (Particle State R)
  rand_gen : G
deriving DecidableEq, Repr

/-- Modulus of `boost::minstd_rand` (`2^31 - 1`). -/
def minstd_modulus : Nat := 2147483647

/-- Multiplier of `boost::minstd_rand`. -/
def minstd_multiplier : Nat := 48271

/-- Seeding of `boost::minstd_rand`: the engine state is `x0 % modulus`. -/
def minstd_seed (x0 : Nat) : Nat := x0 % minstd_modulus

/-- One step of `boost::minstd_rand`: `x ← 48271 * x mod (2^31 - 1)`. -/
def minstd_next (x : Nat) : Nat := (minstd_multiplier * x) % minstd_modulus

/-- The variate generator of lines 36-37 over the engine `minstd_rand`:
`uniform_real<>(0, hi)` applied to the engine output scaled to `[0, 1)`, that is
`(x - 1) / (2^31 - 2) * (hi - 0) + 0`.  Returns the draw and the advanced engine
(the generator holds the engine by reference). -/
def minstd_rand {R : Type} [LinearOrderedField R] (g : Nat) (hi : R) : R × Nat :=
  let x := minstd_next g
  ((((x : R) - 1) / 2147483646) * (hi - 0) + 0, x)

/-- The constructor `ParticleFilter()` (lines 26-29): `rand_gen( 42u )`; the
particle vector starts empty. -/
def ParticleFilter.new {State R : Type} : ParticleFilter State R Nat :=
  { xi_k := [], rand_gen := minstd_seed 42 }

section Resample

variable {State R G : Type} [LinearOrderedField R]

/-- Lines 33-34: `for(n=0; n<xi_k.size(); sumWeights += xi_k[n++].w);`
starting from `sumWeights = 0`. -/
def sumWeights (xi_k : List (Particle State R)) : R :=
  xi_k.foldl (fun acc p => acc + p.w) 0

/-- Lines 45-53, the inner loop over the remaining particles with the running
`sum`: the first particle at which `r_n < sum` is selected (`push_back` and
`break`); when the loop runs to its end nothing is selected. -/
def select (r_n : R) : List (Particle State R) → R → Option (Particle State R)
  | [], _ => none
  | p :: rest, sum =>
    let sum := sum + p.w
    if r_n < sum then some p else select r_n rest sum

/-- Lines 40-54, the outer loop with `todo` iterations left: each iteration
takes one draw `r_n = rand()` and appends the selected particle, if any, to
`xi_kp`. -/
def resampleLoop (rand : G → R → R × G) (xi_k : List (Particle State R)) (sumW : R) :
    Nat → G → List (Particle State R) → List (Particle State R) × G
  | 0, g, xi_kp => (xi_kp, g)
  | todo + 1, g, xi_kp =>
    let d := rand g sumW
    match select d.1 xi_k 0 with
    | some p => resampleLoop rand xi_k sumW todo d.2 (xi_kp ++ [p])
    | none => resampleLoop rand xi_k sumW todo d.2 xi_kp

/-- The method `ParticleFilter::resample` (lines 31-57).  `rand g hi` is one call of the
variate generator `uniform_real<>(0, hi)` on the engine `g`. -/
def resample (rand : G → R → R × G) (f : ParticleFilter State R G) : ParticleFilter State R G :=
  let sumW := sumWeights f.xi_k
  let out := resampleLoop rand f.xi_k sumW f.xi_k.length f.rand_gen []
  { xi_k := out.1, rand_gen := out.2 }

/-- The engine after `k` calls of the variate generator with upper bound `hi`. -/
def engineAfter (rand : G → R → R × G) (hi : R) (k : Nat) (g : G) : G :=
  (fun e => (rand e hi).2)^[k] g

/-- The value of the `k`-th call (counted from 0) of the variate generator with
upper bound `hi`, starting from the engine `g`. -/
def drawAt (rand : G → R → R × G) (hi : R) (g : G) (k : Nat) : R :=
  (rand (engineAfter rand hi k g) hi).1

/-- The running weight sum before index `i`: `w_0 + ... + w_(i-1)`. -/
def cumWeight (xi_k : List (Particle State R)) (i : Nat) : R :=
  sumWeights (xi_k.take i)

/-- Systematic (low-variance) selection as the specification words it: the
particle whose cumulative normalised weight interval
`[cumWeight i / total, cumWeight (i+1) / total)` contains the position `u`. -/
def systematicSelect (xi_k : List (Particle State R)) (u : R) : Option (Particle State R) :=
  ((List.range xi_k.length).find? (fun i =>
      decide (cumWeight xi_k i / sumWeights xi_k ≤ u) &&
      decide (u < cumWeight xi_k (i + 1) / sumWeights xi_k))).bind (fun i => xi_k[i]?)

/-- Systematic (low-variance) resampling as the specification words it: from a
single draw `u0`, the positions are `u_k = u0 + k/N` for `k = 0 .. N-1`, and the
`k`-th output is the particle selected at `u_k`. -/
def systematicResample (xi_k : List (Particle State R)) (u0 : R) : List (Particle State R) :=
  (List.range xi_k.length).filterMap (fun (k : Nat) =>
    systematicSelect xi_k (u0 + (k : R) / (xi_k.length : R)))

end Resample

/-- Two particles, both of weight zero, in a freshly seeded filter. -/
def zeroWeightFilter : ParticleFilter Nat ℚ Nat :=
  { xi_k := [⟨0, 0⟩, ⟨1, 0⟩], rand_gen := minstd_seed 42 }

/-- One particle of weight 1 and one of weight 0, in a freshly seeded filter. -/
def oneHotFilter : ParticleFilter Nat ℚ Nat :=
  { xi_k := [⟨0, 1⟩, ⟨1, 0⟩], rand_gen := minstd_seed 42 }

/-- Three particles of weight 1/3 each, in a freshly seeded filter. -/
def uniformFilter : ParticleFilter Nat ℚ Nat :=
  { xi_k := [⟨0, 1/3⟩, ⟨1, 1/3⟩, ⟨2, 1/3⟩], rand_gen := minstd_seed 42 }


/-- Two particles of weight 1/2 with a particle of weight zero between them,
in a freshly seeded filter. -/
def gappedFilter : ParticleFilter Nat ℚ Nat :=
  { xi_k := [⟨0, 1/2⟩, ⟨1, 0⟩, ⟨2, 1/2⟩], rand_gen := minstd_seed 42 }

/-! ## `Configuration.hpp` -/

/-- The struct `UpdateThreshold`: a Cartesian and an angular threshold. -/
structure UpdateThreshold (R : Type) where
  distance : R
  angle : R
deriving DecidableEq, Repr

/-- The struct `Configuration`. -/
structure Configuration (R : Type) where
  seed : Nat
  particleCount : Nat
  minEffective : Nat
  initialError : R
  weightingFactor : R
  measurementError : R
  discountFactor : R
  measurementThreshold : UpdateThreshold R
  mappingThreshold : UpdateThreshold R
deriving DecidableEq, Repr

/-- The constructor `Configuration()` (lines 20-30).  `M_PI` is the constant of
`<cmath>`. -/
def Configuration.new {R : Type} [LinearOrderedField R] (M_PI : R) : Configuration R :=
  { seed := 42
    particleCount := 250
    minEffective := 50
    initialError := 0.1
    weightingFactor := 0.1
    measurementError := 0.1
    discountFactor := 0.9
    measurementThreshold := ⟨0.1, 10 * M_PI / 180.0⟩
    mappingThreshold := ⟨0.02, 5 * M_PI / 180.0⟩ }

/-- The struct `envire::MultiLevelSurfaceGrid::SurfacePatch`, constructed in the source as
`SurfacePatch( mean, stdev, thickness, horizontal )` with `update_idx` 0. -/
structure SurfacePatch (R : Type) where
  mean : R
  stdev : R
  thickness : R
  horizontal : Bool
  update_idx : Nat
deriving DecidableEq, Repr

/-- The struct `envire::MultiLevelSurfaceGrid::Position`: a cell index `(m, n)`. -/
structure Position where
  m : Nat
  n : Nat
deriving DecidableEq, Repr

/-- The struct `eslam::PoseEstimator::Particle` as the mapping step uses it: planar
position and orientation, the height belief `(zPos, zSigma)`, the weight, and
the particle's map (`grid.getMap()`). -/
structure PoseParticle (R Map : Type) where
  position : R × R
  orientation : R
  zPos : R
  zSigma : R
  w : R
  grid : Map

/-- The library code the orchestrator calls and that is not part of the
repository sources: Eigen and `base` geometry, the odometry, the pose estimator
(`filter`), and the envire environment, grids, maps and operators.  A pointer
to a mutable object is a value that is read with a getter and written back with
a setter. -/
structure External (R : Type) where
  /-- Models `Eigen::Transform3d`. -/
  Transform : Type
  /-- Models `Eigen::Quaterniond`. -/
  Quaternion : Type
  /-- Models `base::Pose`. -/
  Pose : Type
  /-- Models `asguard::BodyState`. -/
  BodyState : Type
  /-- Models `base::samples::LaserScan`. -/
  LaserScan : Type
  /-- Models `asguard::odometry::Wheel`. -/
  Odometry : Type
  /-- Models `eslam::PoseEstimator`. -/
  Filter : Type
  /-- Models `envire::Environment`. -/
  Environment : Type
  /-- Models `envire::MultiLevelSurfaceGrid`. -/
  Grid : Type
  /-- Models `envire::MLSMap`. -/
  Map : Type
  /-- Models `envire::TriMesh`, the point cloud of the scan. -/
  TriMesh : Type
  /-- Models `Pose::toTransform()`. -/
  toTransform : Pose → Transform
  /-- Models `base::Pose( Eigen::Transform3d )`. -/
  ofTransform : Transform → Pose
  /-- Models `base::Pose( Eigen::Vector3d(x,y,z), q )`. -/
  mkPose : R → R → R → Quaternion → Pose
  /-- Models `Eigen::Quaterniond::Identity()`. -/
  identity : Quaternion
  /-- Models `pose.position`. -/
  positionOf : Pose → R × R × R
  /-- Models `pose.orientation.toRotationMatrix().eulerAngles(2,1,0)[0]`. -/
  yawOf : Pose → R
  /-- Models `a * b` on transforms. -/
  mul : Transform → Transform → Transform
  /-- Models `t.inverse()`. -/
  inverse : Transform → Transform
  /-- Models `Eigen::AngleAxisd( t.rotation() ).angle()`. -/
  angle : Transform → R
  /-- Models `t.translation().norm()`. -/
  norm : Transform → R
  /-- Models `Eigen::Translation3d( x, y, z )`. -/
  translation : R → R → R → Transform
  /-- Models `Eigen::AngleAxisd( a, Eigen::Vector3d::UnitZ() )`. -/
  rotationZ : R → Transform
  /-- Models `t * v` on a vector. -/
  apply : Transform → R × R × R → R × R × R
  /-- The constant `M_PI` of `<cmath>`. -/
  M_PI : R
  /-- Models `sqrt`. -/
  sqrt : R → R
  /-- Models `kalman_update( mean, stdev, m_mean, m_var )` of `envire/tools/Numeric.hpp`,
  returning the updated `(mean, stdev)`. -/
  kalman_update : R → R → R → R → R × R
  /-- Models `odometry.getPoseDelta()`. -/
  getPoseDelta : Odometry → Pose
  /-- Models `odometry.update( bs, orientation )`. -/
  odometryUpdate : Odometry → BodyState → Quaternion → Odometry
  /-- Models `filter.init( particleCount, pose2d, sigma2d, z, sigma_z )`. -/
  filterInit : Filter → Nat → (R × R × R) → (R × R × R) → R → R → Filter
  /-- Models `filter.setEnvironment( env, map, useSharedMap )`. -/
  setEnvironment : Filter → Environment → Map → Bool → Filter
  /-- Models `filter.project( bs, orientation )`. -/
  project : Filter → BodyState → Quaternion → Filter
  /-- Models `filter.update( bs, orientation )`. -/
  filterUpdate : Filter → BodyState → Quaternion → Filter
  /-- Models `filter.getParticles()`, read. -/
  getParticles : Filter → List (PoseParticle R Map)
  /-- Models `filter.getParticles()`, written back. -/
  setParticles : Filter → List (PoseParticle R Map) → Filter
  /-- Models `filter.getCentroid()`. -/
  getCentroid : Filter → Pose
  /-- Models `env->getItems<envire::MultiLevelSurfaceGrid>()`. -/
  getItemsGrid : Environment → List Grid
  /-- Models `new MultiLevelSurfaceGrid( w, h, rx, ry )` attached to the environment
  under a new frame node with the given transform (lines 29-33). -/
  newGrid : Environment → R → R → R → R → Transform → Grid × Environment
  /-- Models `grid->setHorizontalPatchThickness( t )`. -/
  setHorizontalPatchThickness : Grid → R → Grid
  /-- Models `grid->setGapSize( g )`. -/
  setGapSize : Grid → R → Grid
  /-- Models `grid->getWidth()`. -/
  getWidth : Grid → Nat
  /-- Models `grid->getHeight()`. -/
  getHeight : Grid → Nat
  /-- Models `grid->insertTail( m, n, p )`. -/
  insertTail : Grid → Nat → Nat → SurfacePatch R → Grid
  /-- Models `new MLSMap()` under a new frame node, with `addGrid( grid )`
  (lines 57-62). -/
  newMap : Environment → Grid → Map × Environment
  /-- The frames, the scan node, the point cloud node and the two operators set
  up in lines 106-126 for the scan grid. -/
  setupScan : Environment → Grid → Environment
  /-- Models `scanNode->lines.clear(); scanNode->addScanLine( 0, scan );
  smOp->updateAll()`: the point cloud of the scan. -/
  scanMeshing : LaserScan → TriMesh
  /-- Models `mlsOp->updateAll()` with the shared map's active grid as the output and
  the scan frame at the given transform (lines 148-151). -/
  projectShared : TriMesh → Transform → Map → Map
  /-- Models `scanMap->clear(); mlsOp->updateAll()` with the scanner frame at
  `body2World * laser2Body`, both with the uncertainty of lines 156-169, where
  `body2World` is `base::removeYaw( orientation )`. -/
  projectScan : TriMesh → R → R → Transform → Transform → Grid → Grid
  /-- Models `trans.laser2Body`. -/
  laser2Body : Transform
  /-- Models `base::removeYaw( orientation )`. -/
  removeYaw : Quaternion → Transform
  /-- Models `map->getActiveGrid().get()`, read. -/
  getActiveGrid : Map → Grid
  /-- The active grid written back after it was changed through the pointer. -/
  setActiveGrid : Map → Grid → Map
  /-- Models `map->createGrid( transform )`. -/
  createGrid : Map → Transform → Map
  /-- Models `grid->getCenterPoint()`. -/
  getCenterPoint : Grid → R × R
  /-- Models `scanFrame->relativeTransform( grid->getFrameNode() )` with the scan frame
  at the given transform. -/
  frameToGrid : Transform → Grid → Transform
  /-- Models `env->relativeTransform( scanMap->getFrameNode(), grid->getFrameNode() )`
  with the scan frame at the given transform. -/
  gridToGrid : Transform → Grid → Grid → Transform
  /-- Models `grid->getIndex()->cells`, the touched cells in iteration order. -/
  cells : Grid → List Position
  /-- Models `grid->fromGrid( m, n, x, y )`: the centre of a cell. -/
  fromGrid : Grid → Nat → Nat → R × R
  /-- Models `grid->toGrid( x, y, m, n )`: the cell of a point, when it is inside. -/
  toGrid : Grid → R → R → Option (Nat × Nat)
  /-- The patches from `grid->beginCell( m, n )` to `grid->endCell()`. -/
  cellPatches : Grid → Nat → Nat → List (SurfacePatch R)
  /-- Models `grid->get( pos, patch, sigma )`. -/
  get : Grid → Position → SurfacePatch R → R → Option (SurfacePatch R)
  /-- Models `grid->updateCell( m, n, patch )`. -/
  updateCell : Grid → Nat → Nat → SurfacePatch R → Grid

/-- A call made to a collaborator, recorded in the order the calls are made. -/
inductive Call where
  | odometryUpdate
  | project
  | filterUpdate
  | scanMeshing
  | projectShared
  | projectScan
  | createGrid (particle : Nat)
  | updateCell (particle : Nat) (m n : Nat)
deriving DecidableEq, Repr

/-- The members of `EmbodiedSlamFilter` the modelled functions use, the
function-local `static size_t update_idx` of line 139, and the record of
collaborator calls. -/
structure EmbodiedSlamFilter (R : Type) (E : External R) where
  eslamConfig : Configuration R
  odometry : E.Odometry
  filter : E.Filter
  sharedMap : Option E.Map
  odPose : E.Pose
  udPose : E.Pose
  mapPose : E.Pose
  scanMap : E.Grid
  pcNode : E.TriMesh
  update_idx : Nat
  calls : List Call

/-- The function `sq` of `envire/tools/Numeric.hpp`. -/
def sq {R : Type} [LinearOrderedField R] (x : R) : R := x * x

section Orchestrator

variable {R : Type} [LinearOrderedField R]

/-- The index `cx + x` of line 53, a `size_t` plus an `int`, computed modulo
`2^64`. -/
def offsetIndex (c : Nat) (x : Int) : Nat := (((c : Int) + x) % (2 ^ 64 : Int)).toNat

/-- The method `EmbodiedSlamFilter::createGridTemplate` (lines 25-39). -/
def createGridTemplate (E : External R) (env : E.Environment) : E.Grid × E.Environment :=
  let size : R := 20
  let resolution : R := 0.05
  let made := E.newGrid env (size / resolution) (size / resolution) resolution resolution
    (E.translation (-size / 2.0) (-size / 2.0) 0)
  let gridTemplate := E.setHorizontalPatchThickness made.1 0.1
  let gridTemplate := E.setGapSize gridTemplate 1.50
  (gridTemplate, made.2)

/-- The method `EmbodiedSlamFilter::createMapTemplate` (lines 41-65). -/
def createMapTemplate (E : External R) (env : E.Environment) : E.Map × E.Environment :=
  let made := createGridTemplate E env
  let p : SurfacePatch R := ⟨0, 1.0, 0, true, 0⟩
  let cx := E.getWidth made.1 / 2
  let cy := E.getHeight made.1 / 2
  let offsets : List Int := (List.range 40).map (fun i => (i : Int) - 20)
  let gridTemplate := offsets.foldl (fun g x =>
    offsets.foldl (fun g y => E.insertTail g (offsetIndex cx x) (offsetIndex cy y) p) g) made.1
  E.newMap made.2 gridTemplate

/-- The method `EmbodiedSlamFilter::init` (lines 67-127).  A thrown
`std::runtime_error` is the `error` result with its message. -/
def EmbodiedSlamFilter.init (E : External R) (s : EmbodiedSlamFilter R E)
    (env : E.Environment) (pose : E.Pose) (useSharedMap : Bool) :
    Except String (EmbodiedSlamFilter R E × E.Environment) :=
  let angle := E.yawOf pose
  let position := E.positionOf pose
  let filter := E.filterInit s.filter s.eslamConfig.particleCount
    (position.1, position.2.1, angle) (1e-3, 1e-3, 1e-3) position.2.2 1e-3
  let far := E.mkPose 1000 0 0 E.identity
  let s := { s with filter := filter, odPose := pose, udPose := far, mapPose := far }
  let shared : Except String (EmbodiedSlamFilter R E × E.Environment) :=
    if useSharedMap then
      let grids := E.getItemsGrid env
      if !grids.isEmpty then
        Except.error "feature broken"
      else
        let made := createMapTemplate E env
        Except.ok ({ s with sharedMap := some made.1 }, made.2)
    else
      Except.ok (s, env)
  match shared with
  | Except.error e => Except.error e
  | Except.ok (s, env) =>
    let set : EmbodiedSlamFilter R E × E.Environment :=
      match s.sharedMap with
      | some sharedMap =>
        ({ s with filter := E.setEnvironment s.filter env sharedMap useSharedMap }, env)
      | none =>
        let made := createMapTemplate E env
        ({ s with filter := E.setEnvironment s.filter made.2 made.1 useSharedMap }, made.2)
    let scan := createGridTemplate E set.2
    Except.ok ({ set.1 with scanMap := scan.1 }, E.setupScan scan.2 scan.1)

/-- The method `EmbodiedSlamFilter::update( bs, orientation )` (lines 276-295):
the returned flag and the filter afterwards. -/
def EmbodiedSlamFilter.update (E : External R) (s : EmbodiedSlamFilter R E)
    (bs : E.BodyState) (orientation : E.Quaternion) : Bool × EmbodiedSlamFilter R E :=
  let odPose := E.ofTransform
    (E.mul (E.toTransform s.odPose) (E.toTransform (E.getPoseDelta s.odometry)))
  let odometry := E.odometryUpdate s.odometry bs orientation
  let filter := E.project s.filter bs orientation
  let s := { s with odPose := odPose, odometry := odometry, filter := filter,
                    calls := s.calls ++ [Call.odometryUpdate, Call.project] }
  let pdelta := E.mul (E.inverse (E.toTransform s.udPose)) (E.toTransform s.odPose)
  let max_angle := s.eslamConfig.measurementThreshold.angle
  let max_dist := s.eslamConfig.measurementThreshold.distance
  if E.angle pdelta > max_angle ∨ E.norm pdelta > max_dist then
    (true, { s with filter := E.filterUpdate s.filter bs orientation, udPose := s.odPose,
                    calls := s.calls ++ [Call.filterUpdate] })
  else
    (false, s)

/-- Lines 227-230: the measurement patch built from a scan patch `cit` for a
particle with height belief `(zPos, zSigma)`. -/
def measurementPatch (E : External R) (cit : SurfacePatch R) (zPos zSigma : R)
    (update_idx : Nat) : SurfacePatch R :=
  let meas_patch := cit
  let meas_patch := { meas_patch with mean := meas_patch.mean + zPos }
  let meas_patch := { meas_patch with stdev := E.sqrt (sq meas_patch.stdev + sq zSigma) }
  { meas_patch with update_idx := update_idx }

/-- The local variables the probe loop of lines 214-244 accumulates: the
vector `patches` and the sums `d1` and `d2`. -/
structure Probe (R : Type) where
  patches : List (Position × SurfacePatch R)
  d1 : R
  d2 : R

/-- Lines 225-242: the loop over the patches of one scan cell, for the target
position `pos`. -/
def probeCell (E : External R) (pgrid : E.Grid) (zPos zSigma : R) (update_idx : Nat)
    (pos : Position) : List (SurfacePatch R) → Probe R → Probe R
  | [], acc => acc
  | cit :: rest, acc =>
    let meas_patch := measurementPatch E cit zPos zSigma update_idx
    let patches := acc.patches ++ [(pos, meas_patch)]
    match E.get pgrid pos meas_patch 0.5 with
    | some tar_patch =>
      if (tar_patch.horizontal && meas_patch.horizontal &&
          decide (tar_patch.update_idx + 0 < meas_patch.update_idx) && false) = true then
        let diff := meas_patch.mean - tar_patch.mean
        let var := sq tar_patch.stdev + sq meas_patch.stdev
        probeCell E pgrid zPos zSigma update_idx pos rest
          { patches := patches, d1 := acc.d1 + diff / var, d2 := acc.d2 + 1.0 / var }
      else
        probeCell E pgrid zPos zSigma update_idx pos rest { acc with patches := patches }
    | none =>
      probeCell E pgrid zPos zSigma update_idx pos rest { acc with patches := patches }

/-- Lines 216-222: the centre of the scan cell `it`, taken into the frame of
the target grid, and the target cell `toGrid` finds for it, if any. -/
def targetCell (E : External R) (scanMap pgrid : E.Grid) (C_s2p : E.Transform)
    (it : Position) : Option (Nat × Nat) :=
  let centre := E.fromGrid scanMap it.m it.n
  let pos := E.apply C_s2p (centre.1, centre.2, 0)
  E.toGrid pgrid pos.1 pos.2.1

/-- Lines 214-244: the loop over the touched cells of the scan grid. -/
def probe (E : External R) (scanMap pgrid : E.Grid) (C_s2p : E.Transform) (zPos zSigma : R)
    (update_idx : Nat) : List Position → Probe R → Probe R
  | [], acc => acc
  | it :: rest, acc =>
    match targetCell E scanMap pgrid C_s2p it with
    | some (m, n) =>
      probe E scanMap pgrid C_s2p zPos zSigma update_idx rest
        (probeCell E pgrid zPos zSigma update_idx ⟨m, n⟩ (E.cellPatches scanMap it.m it.n) acc)
    | none => probe E scanMap pgrid C_s2p zPos zSigma update_idx rest acc

/-- Lines 256-266: the merge loop; every measurement patch is shifted by
`delta` and committed with `updateCell`.  The calls are recorded for the
particle with index `i`. -/
def merge (E : External R) (i : Nat) (delta : R) :
    List (Position × SurfacePatch R) → E.Grid × List Call → E.Grid × List Call
  | [], acc => acc
  | (pos, pa) :: rest, acc =>
    let pa := { pa with mean := pa.mean + delta }
    merge E i delta rest
      (E.updateCell acc.1 pos.m pos.n pa, acc.2 ++ [Call.updateCell i pos.m pos.n])

/-- Lines 182-185: the transform the scan frame is set to for the particle. -/
def scanFrameOf (E : External R) (p : PoseParticle R E.Map) : E.Transform :=
  E.mul (E.translation p.position.1 p.position.2 0) (E.rotationZ p.orientation)

/-- Lines 187-197: every 50th mapping step a new grid is created in the
particle's map, centred on the particle; the map afterwards and the calls
made, for the particle with index `i`. -/
def recentre (E : External R) (update_idx : Nat) (i : Nat) (p : PoseParticle R E.Map) :
    E.Map × List Call :=
  let pmap := p.grid
  let pgrid := E.getActiveGrid pmap
  if update_idx % 50 = 0 then
    let tf := E.frameToGrid (scanFrameOf E p) pgrid
    let cp := E.getCenterPoint pgrid
    (E.createGrid pmap (E.mul tf (E.translation (-cp.1) (-cp.2) 0)), [Call.createGrid i])
  else
    (pmap, [])

/-- Lines 178-266: the body of the loop over the particles, for the particle
`p` with index `i`: the particle afterwards and the calls made. -/
def mapParticle (E : External R) (scanMap : E.Grid) (update_idx : Nat) (i : Nat)
    (p : PoseParticle R E.Map) : PoseParticle R E.Map × List Call :=
  let recentred := recentre E update_idx i p
  let pmap := recentred.1
  let pgrid := E.getActiveGrid pmap
  let C_s2p := E.gridToGrid (scanFrameOf E p) scanMap pgrid
  let probed := probe E scanMap pgrid C_s2p p.zPos p.zSigma update_idx (E.cells scanMap)
    { patches := [], d1 := 0, d2 := 0 }
  let delta := p.zPos
  let p :=
    if probed.d2 > 0 then
      let mean := probed.d1 / probed.d2
      let var := 1.0 / probed.d2
      let updated := E.kalman_update p.zPos p.zSigma (p.zPos + mean) var
      { p with zPos := updated.1, zSigma := updated.2 }
    else
      p
  let delta := p.zPos - delta
  let merged := merge E i delta probed.patches (pgrid, recentred.2)
  ({ p with grid := E.setActiveGrid pmap merged.1 }, merged.2)

/-- Lines 176-267: the loop over the particles, from index `i` on. -/
def mapParticles (E : External R) (scanMap : E.Grid) (update_idx : Nat) :
    Nat → List (PoseParticle R E.Map) → List (PoseParticle R E.Map) × List Call
  | _, [] => ([], [])
  | i, p :: rest =>
    let head := mapParticle E scanMap update_idx i p
    let tail := mapParticles E scanMap update_idx (i + 1) rest
    (head.1 :: tail.1, head.2 ++ tail.2)

/-- Lines 155-173: the scan grid after the scan has been projected into it
for the per-particle maps: scanner frame at `body2World * laser2Body` with the
uncertainties of 5 and 3 degrees, `scanMap->clear()`, `mlsOp->updateAll()`. -/
def projectedScanMap (E : External R) (s : EmbodiedSlamFilter R E)
    (orientation : E.Quaternion) : E.Grid :=
  let scanAngleSigma : R := 5.0 / 180.0 * E.M_PI
  let pitchRollSigma : R := 3.0 / 180.0 * E.M_PI
  E.projectScan s.pcNode scanAngleSigma pitchRollSigma E.laser2Body
    (E.removeYaw orientation) s.scanMap

/-- Lines 139-271: the mapping step taken when the mapping threshold is
exceeded. -/
def EmbodiedSlamFilter.map (E : External R) (s : EmbodiedSlamFilter R E)
    (orientation : E.Quaternion) (scan : E.LaserScan) : EmbodiedSlamFilter R E :=
  let s := { s with pcNode := E.scanMeshing scan, calls := s.calls ++ [Call.scanMeshing] }
  let s :=
    match s.sharedMap with
    | some sharedMap =>
      let scanFrame := E.mul (E.toTransform (E.getCentroid s.filter)) E.laser2Body
      { s with sharedMap := some (E.projectShared s.pcNode scanFrame sharedMap),
               calls := s.calls ++ [Call.projectShared] }
    | none =>
      let scanMap := projectedScanMap E s orientation
      let mapped := mapParticles E scanMap s.update_idx 0 (E.getParticles s.filter)
      { s with scanMap := scanMap, filter := E.setParticles s.filter mapped.1,
               calls := s.calls ++ [Call.projectScan] ++ mapped.2 }
  { s with update_idx := (s.update_idx + 1) % 2 ^ 64, mapPose := s.odPose }

/-- The delta `a ⊖ b` of the specification: `b⁻¹ · a` on the transforms of the
two poses. -/
def poseDelta (E : External R) (a b : E.Pose) : E.Transform :=
  E.mul (E.inverse (E.toTransform b)) (E.toTransform a)

/-- A delta exceeds a threshold when its translation norm is greater than the
distance or its rotation angle is greater than the angle. -/
def exceeds (E : External R) (threshold : UpdateThreshold R) (delta : E.Transform) : Prop :=
  E.norm delta > threshold.distance ∨ E.angle delta > threshold.angle

/-- The odometry pose after it has been advanced by the odometry's pose delta
(line 278). -/
def advancedPose (E : External R) (s : EmbodiedSlamFilter R E) : E.Pose :=
  E.ofTransform (E.mul (E.toTransform s.odPose) (E.toTransform (E.getPoseDelta s.odometry)))

/-- The active grid the mapping step of a particle writes to: the active grid
of the particle's map after the re-centring of lines 187-197. -/
def targetGrid (E : External R) (update_idx : Nat) (p : PoseParticle R E.Map) : E.Grid :=
  E.getActiveGrid (recentre E update_idx 0 p).1

/-- The transform `C_s2p` of line 199 from the scan grid to the target grid of
the particle. -/
def scanToParticle (E : External R) (scanMap : E.Grid) (update_idx : Nat)
    (p : PoseParticle R E.Map) : E.Transform :=
  E.gridToGrid (scanFrameOf E p) scanMap (targetGrid E update_idx p)

/-- The measurement patches a touched scan cell `it` contributes: one for
every scan patch of the cell when the cell's centre falls into the target grid,
none otherwise. -/
def cellMeasurements (E : External R) (scanMap pgrid : E.Grid) (C_s2p : E.Transform)
    (zPos zSigma : R) (update_idx : Nat) (it : Position) : List (Position × SurfacePatch R) :=
  match targetCell E scanMap pgrid C_s2p it with
  | some (m, n) =>
    (E.cellPatches scanMap it.m it.n).map
      (fun cit => (⟨m, n⟩, measurementPatch E cit zPos zSigma update_idx))
  | none => []

/-- A grid of unit cells for `simpleExternal`: the extent, the position of the
corner of cell `(0, 0)`, the touched cells and the patches of every cell. -/
structure SimpleGrid (R : Type) where
  width : Nat
  height : Nat
  origin : R × R
  touched : List Position
  content : Nat → Nat → List (SurfacePatch R)

/-- A patch appended to the cell `(m, n)` of a simple grid, which becomes a
touched cell. -/
def SimpleGrid.add (g : SimpleGrid R) (m n : Nat) (p : SurfacePatch R) : SimpleGrid R :=
  { g with touched := if (⟨m, n⟩ : Position) ∈ g.touched then g.touched
                      else g.touched ++ [⟨m, n⟩]
           content := fun a b => if a = m ∧ b = n then g.content a b ++ [p]
                                 else g.content a b }

/-- The cell of a simple grid that the point `(x, y)` lies in, if any. -/
def SimpleGrid.locate (g : SimpleGrid R) (x y : R) : Option (Nat × Nat) :=
  ((List.range g.width).flatMap (fun m => (List.range g.height).map (fun n => (m, n)))).find?
    (fun mn => decide ((mn.1 : R) ≤ x) && decide (x < (mn.1 : R) + 1) &&
      decide ((mn.2 : R) ≤ y) && decide (y < (mn.2 : R) + 1))

/-- An empty simple grid of 400 by 400 cells with its corner at `origin`. -/
def SimpleGrid.empty (origin : R × R) : SimpleGrid R :=
  { width := 400, height := 400, origin := origin, touched := [], content := fun _ _ => [] }

/-- A small concrete instance of the library interface, on which the
definitions can be run: transforms and poses are planar translations, grids are
simple grids of unit cells, a map is the list of its grids with the active grid
first, a scan and its point cloud are the scan grid itself, the odometry holds
its pose delta, and the pose estimator is its particle list.  The square root
and the value of `M_PI` are given. -/
def simpleExternal (R : Type) [LinearOrderedField R] (sqrt : R → R) (pi : R) : External R where
  Transform := R × R
  Quaternion := Unit
  Pose := R × R
  BodyState := R × R
  LaserScan := SimpleGrid R
  Odometry := R × R
  Filter := List (PoseParticle R (List (SimpleGrid R)))
  Environment := List (SimpleGrid R)
  Grid := SimpleGrid R
  Map := List (SimpleGrid R)
  TriMesh := SimpleGrid R
  toTransform := fun p => p
  ofTransform := fun t => t
  mkPose := fun x y _ _ => (x, y)
  identity := ()
  positionOf := fun p => (p.1, p.2, 0)
  yawOf := fun _ => 0
  mul := fun a b => (a.1 + b.1, a.2 + b.2)
  inverse := fun a => (-a.1, -a.2)
  angle := fun _ => 0
  norm := fun a => |a.1| + |a.2|
  translation := fun x y _ => (x, y)
  rotationZ := fun _ => (0, 0)
  apply := fun t v => (v.1 + t.1, v.2.1 + t.2, v.2.2)
  M_PI := pi
  sqrt := sqrt
  kalman_update := fun mean stdev m_mean m_var =>
    (mean + sq stdev / (sq stdev + m_var) * (m_mean - mean),
      sqrt ((1 - sq stdev / (sq stdev + m_var)) * sq stdev))
  getPoseDelta := fun o => o
  odometryUpdate := fun _ bs _ => bs
  filterInit := fun _ n pose _ z sigma =>
    List.replicate n ⟨(pose.1, pose.2.1), pose.2.2, z, sigma, 1, []⟩
  setEnvironment := fun f _ map _ => f.map (fun p => { p with grid := map })
  project := fun f bs _ =>
    f.map (fun p => { p with position := (p.position.1 + bs.1, p.position.2 + bs.2) })
  filterUpdate := fun f _ _ => f
  getParticles := fun f => f
  setParticles := fun _ ps => ps
  getCentroid := fun f => (f.headD ⟨(0, 0), 0, 0, 0, 0, []⟩).position
  getItemsGrid := fun env => env
  newGrid := fun env _ _ _ _ tf => (SimpleGrid.empty tf, env ++ [SimpleGrid.empty tf])
  setHorizontalPatchThickness := fun g _ => g
  setGapSize := fun g _ => g
  getWidth := fun g => g.width
  getHeight := fun g => g.height
  insertTail := fun g m n p => g.add m n p
  newMap := fun env g => ([g], env)
  setupScan := fun env _ => env
  scanMeshing := fun scan => scan
  projectShared := fun _ _ map => map
  projectScan := fun pc _ _ _ _ _ => pc
  laser2Body := (0, 0)
  removeYaw := fun _ => (0, 0)
  getActiveGrid := fun map => map.headD (SimpleGrid.empty (0, 0))
  setActiveGrid := fun map g => g :: map.tail
  createGrid := fun map tf => SimpleGrid.empty tf :: map
  getCenterPoint := fun g => ((g.width : R) / 2, (g.height : R) / 2)
  frameToGrid := fun tf g => (tf.1 - g.origin.1, tf.2 - g.origin.2)
  gridToGrid := fun tf src dst =>
    (tf.1 + src.origin.1 - dst.origin.1, tf.2 + src.origin.2 - dst.origin.2)
  cells := fun g => g.touched
  fromGrid := fun _ m n => ((m : R) + 1 / 2, (n : R) + 1 / 2)
  toGrid := fun g x y => g.locate x y
  cellPatches := fun g m n => g.content m n
  get := fun g pos patch sigma =>
    (g.content pos.m pos.n).find? (fun q => decide (|q.mean - patch.mean| ≤ sigma))
  updateCell := fun g m n p => g.add m n p

/-- A scan grid with one touched cell `(1, 2)` holding one horizontal patch of
mean 1 and standard deviation 3. -/
def sampleScanMap (R : Type) [LinearOrderedField R] : SimpleGrid R :=
  (SimpleGrid.empty (0, 0)).add 1 2 ⟨1, 3, 0, true, 0⟩

/-- A particle at the origin with height 2 and height deviation 4, whose map is
one empty grid. -/
def sampleParticle (R : Type) [LinearOrderedField R] : PoseParticle R (List (SimpleGrid R)) :=
  ⟨(0, 0), 0, 2, 4, 1, [SimpleGrid.empty (0, 0)]⟩

/-- The grid after the patches of a list have been committed to it with
`updateCell`, one after the other, each as it stands in the list. -/
def commit (E : External R) (pgrid : E.Grid) (patches : List (Position × SurfacePatch R)) :
    E.Grid :=
  patches.foldl (fun g pp => E.updateCell g pp.1.m pp.1.n pp.2) pgrid

/-- The library interface with `kalman_update` replaced by another function. -/
def withKalman (E : External R) (k : R → R → R → R → R × R) : External R :=
  { E with kalman_update := k }

end Orchestrator

end eslam

namespace eslam

set_option linter.unusedSectionVars false

section ResampleLemmas

variable {State R G : Type} [LinearOrderedField R]

theorem foldl_weights (xs : List (Particle State R)) (a : R) :
    xs.foldl (fun acc p => acc + p.w) a = a + sumWeights xs := by
  induction xs generalizing a with
  | nil => simp [sumWeights]
  | cons p xs ih =>
    simp only [sumWeights, List.foldl_cons]
    rw [ih, ih (0 + p.w)]
    simp [sumWeights, add_assoc]

theorem sumWeights_nil : sumWeights ([] : List (Particle State R)) = 0 := rfl

theorem sumWeights_cons (p : Particle State R) (xs : List (Particle State R)) :
    sumWeights (p :: xs) = p.w + sumWeights xs := by
  simp only [sumWeights, List.foldl_cons]
  rw [foldl_weights]
  simp [sumWeights]

theorem cumWeight_zero (xs : List (Particle State R)) : cumWeight xs 0 = 0 := by
  simp [cumWeight, sumWeights]

theorem cumWeight_cons_succ (p : Particle State R) (xs : List (Particle State R)) (i : Nat) :
    cumWeight (p :: xs) (i + 1) = p.w + cumWeight xs i := by
  simp [cumWeight, sumWeights_cons]

/-- A selected particle is one of the particles the loop ran over. -/
theorem select_mem (r : R) (xs : List (Particle State R)) (s : R) (p : Particle State R)
    (h : select r xs s = some p) : p ∈ xs := by
  induction xs generalizing s with
  | nil => simp [select] at h
  | cons q xs ih =>
    simp only [select] at h
    split at h
    · simp only [Option.some.injEq] at h
      simp [h]
    · exact List.mem_cons_of_mem _ (ih _ h)

/-- With non-negative weights, a draw in `[s, s + total)` selects the particle
whose running-sum interval contains it. -/
theorem select_interval (r : R) (xs : List (Particle State R)) (s : R)
    (hw : ∀ p ∈ xs, 0 ≤ p.w) (hlo : s ≤ r) (hhi : r < s + sumWeights xs) :
    ∃ i, i < xs.length ∧ select r xs s = xs[i]? ∧
      s + cumWeight xs i ≤ r ∧ r < s + cumWeight xs (i + 1) := by
  induction xs generalizing s with
  | nil =>
    rw [sumWeights_nil] at hhi
    exact absurd hhi (by simpa using hlo)
  | cons q xs ih =>
    by_cases hq : r < s + q.w
    · refine ⟨0, by simp, ?_, ?_, ?_⟩
      · simp [select, hq]
      · simpa [cumWeight_zero] using hlo
      · simpa [cumWeight_cons_succ, cumWeight_zero] using hq
    · have hlo2 : s + q.w ≤ r := not_lt.mp hq
      have hhi2 : r < (s + q.w) + sumWeights xs := by
        rw [sumWeights_cons] at hhi
        linarith
      obtain ⟨i, hi, hsel, h1, h2⟩ :=
        ih (s + q.w) (fun p hp => hw p (List.mem_cons_of_mem _ hp)) hlo2 hhi2
      refine ⟨i + 1, by simpa using hi, ?_, ?_, ?_⟩
      · simp [select, hq, hsel]
      · rw [cumWeight_cons_succ]; linarith
      · rw [cumWeight_cons_succ]; linarith

theorem engineAfter_succ (rand : G → R → R × G) (hi : R) (k : Nat) (g : G) :
    engineAfter rand hi (k + 1) g = engineAfter rand hi k (rand g hi).2 := by
  simp [engineAfter, Function.iterate_succ_apply]

theorem drawAt_zero (rand : G → R → R × G) (hi : R) (g : G) :
    drawAt rand hi g 0 = (rand g hi).1 := by
  simp [drawAt, engineAfter]

theorem drawAt_succ (rand : G → R → R × G) (hi : R) (g : G) (k : Nat) :
    drawAt rand hi g (k + 1) = drawAt rand hi (rand g hi).2 k := by
  simp [drawAt, engineAfter_succ]

/-- The outer loop, closed form: one draw per iteration, and the output is the
accumulator followed by the particles selected at the successive draws. -/
theorem resampleLoop_eq (rand : G → R → R × G) (xs : List (Particle State R)) (hi : R)
    (todo : Nat) (g : G) (acc : List (Particle State R)) :
    resampleLoop rand xs hi todo g acc =
      (acc ++ (List.range todo).filterMap (fun k => select (drawAt rand hi g k) xs 0),
        engineAfter rand hi todo g) := by
  induction todo generalizing g acc with
  | zero => simp [resampleLoop, engineAfter]
  | succ n ih =>
    have hr : (List.range (n + 1)).filterMap (fun k => select (drawAt rand hi g k) xs 0) =
        (select (rand g hi).1 xs 0).toList ++
          (List.range n).filterMap (fun k => select (drawAt rand hi (rand g hi).2 k) xs 0) := by
      rw [List.range_succ_eq_map, List.filterMap_cons, List.filterMap_map]
      simp only [drawAt_zero, Function.comp_def, drawAt_succ]
      cases select (rand g hi).1 xs 0 <;> simp
    rw [hr, engineAfter_succ]
    simp only [resampleLoop]
    cases hsel : select (rand g hi).1 xs 0 with
    | none => simp [ih]
    | some p => simp [ih]

theorem resample_xi_k (rand : G → R → R × G) (f : ParticleFilter State R G) :
    (resample rand f).xi_k = (List.range f.xi_k.length).filterMap
      (fun k => select (drawAt rand (sumWeights f.xi_k) f.rand_gen k) f.xi_k 0) := by
  simp [resample, resampleLoop_eq]

theorem resample_rand_gen (rand : G → R → R × G) (f : ParticleFilter State R G) :
    (resample rand f).rand_gen =
      engineAfter rand (sumWeights f.xi_k) f.xi_k.length f.rand_gen := by
  simp [resample, resampleLoop_eq]

end ResampleLemmas

end eslam

namespace eslam

section ResampleClaims

variable {State R G : Type} [LinearOrderedField R]

theorem filterMap_range_of_isSome {α : Type} (g : Nat → Option α) (n : Nat)
    (h : ∀ j, j < n → (g j).isSome = true) :
    ((List.range n).filterMap g).length = n ∧
      ∀ k, k < n → ((List.range n).filterMap g)[k]? = g k := by
  induction n with
  | zero => simp
  | succ n ih =>
    obtain ⟨hlen, hget⟩ := ih (fun j hj => h j (Nat.lt_succ_of_lt hj))
    obtain ⟨a, ha⟩ := Option.isSome_iff_exists.mp (h n (Nat.lt_succ_self n))
    have hlast : List.filterMap g [n] = [a] := by simp [List.filterMap_cons, ha]
    rw [List.range_succ, List.filterMap_append, hlast]
    refine ⟨by simp [hlen], ?_⟩
    intro k hk
    rcases Nat.lt_succ_iff_lt_or_eq.mp hk with hlt | heq
    · rw [List.getElem?_append_left (by rw [hlen]; exact hlt)]
      exact hget k hlt
    · subst heq
      rw [List.getElem?_append_right (by rw [hlen])]
      simp [hlen, ha]

/-- Every particle after `resample` is one of the particles before it. -/
theorem resample_subset (rand : G → R → R × G) (f : ParticleFilter State R G)
    (p : Particle State R) (hp : p ∈ (resample rand f).xi_k) : p ∈ f.xi_k := by
  rw [resample_xi_k, List.mem_filterMap] at hp
  obtain ⟨k, _, hk⟩ := hp
  exact select_mem _ _ _ _ hk

end ResampleClaims

/-- C1. `resample` does not always keep the particle count: from two particles
that both have weight zero (upper bound of the draws 0, so every draw is 0 and
`r_n < sum` never holds) the filter is left with no particle at all. -/
theorem resample_drops_zero_weight_particles :
    zeroWeightFilter.xi_k.length = 2 ∧
      (resample minstd_rand zeroWeightFilter).xi_k = [] ∧
      (resample minstd_rand zeroWeightFilter).xi_k.length ≠ zeroWeightFilter.xi_k.length := by
  have h : (resample minstd_rand zeroWeightFilter).xi_k = [] := by
    simp [zeroWeightFilter, resample, resampleLoop, select, sumWeights, minstd_rand]
  refine ⟨rfl, h, ?_⟩
  rw [h]
  simp [zeroWeightFilter]

theorem resample_oneHotFilter :
    (resample minstd_rand oneHotFilter).xi_k = [⟨0, 1⟩, ⟨0, 1⟩] := by
  simp [oneHotFilter, resample, resampleLoop, select, sumWeights, minstd_rand, minstd_next,
    minstd_seed, minstd_modulus, minstd_multiplier]
  norm_num [resampleLoop, select]

/-- C2, as stated, fails: from one particle of weight 1 and one of weight 0
(`N = 2`) the particles after `resample` do not all have weight `1/2`; both
are copies of the first particle and have weight 1. -/
theorem resample_weights_not_uniform :
    (resample minstd_rand oneHotFilter).xi_k = [⟨0, 1⟩, ⟨0, 1⟩] ∧
      ¬ ∀ p ∈ (resample minstd_rand oneHotFilter).xi_k,
        p.w = 1 / (oneHotFilter.xi_k.length : ℚ) := by
  refine ⟨resample_oneHotFilter, ?_⟩
  rw [resample_oneHotFilter]
  norm_num [oneHotFilter]

/-- C2 (amended). Every particle in the filter after `resample` is an unchanged
copy of a particle that was in the filter before, state and weight alike: it
is one of the input particles, so its weight is the weight that input particle
had. -/
theorem resample_copies_particles {State R G : Type} [LinearOrderedField R]
    (rand : G → R → R × G) (f : ParticleFilter State R G)
    (p : Particle State R) (hp : p ∈ (resample rand f).xi_k) :
    p ∈ f.xi_k ∧ ∃ q ∈ f.xi_k, p.x = q.x ∧ p.w = q.w :=
  ⟨resample_subset rand f p hp, p, resample_subset rand f p hp, rfl, rfl⟩

/-- C2 (amended), at one particle of weight 1 and one of weight 0: the
particle of weight 1 is in the filter after `resample`, and it is the first
input particle with the weight it had. -/
theorem resample_copies_particles_witness :
    (⟨0, 1⟩ : Particle Nat ℚ) ∈ (resample minstd_rand oneHotFilter).xi_k ∧
    (⟨0, 1⟩ : Particle Nat ℚ) ∈ oneHotFilter.xi_k ∧
    ∃ q ∈ oneHotFilter.xi_k, (⟨0, 1⟩ : Particle Nat ℚ).x = q.x ∧
      (⟨0, 1⟩ : Particle Nat ℚ).w = q.w :=
  ⟨by rw [resample_oneHotFilter]; simp,
    resample_copies_particles minstd_rand oneHotFilter ⟨0, 1⟩
      (by rw [resample_oneHotFilter]; simp)⟩

theorem resample_uniformFilter :
    resample minstd_rand uniformFilter =
      { xi_k := [⟨0, 1/3⟩, ⟨1, 1/3⟩, ⟨0, 1/3⟩], rand_gen := 551494037 } := by
  simp [uniformFilter, resample, resampleLoop, select, sumWeights, minstd_rand, minstd_next,
    minstd_seed, minstd_modulus, minstd_multiplier]
  norm_num [resampleLoop, select]

theorem systematicResample_uniformFilter (u0 : ℚ) (h0 : 0 ≤ u0) (h1 : u0 < 1 / 3) :
    systematicResample uniformFilter.xi_k u0 = [⟨0, 1/3⟩, ⟨1, 1/3⟩, ⟨2, 1/3⟩] := by
  have hs : sumWeights uniformFilter.xi_k = 1 := by norm_num [uniformFilter, sumWeights]
  have hl : uniformFilter.xi_k.length = 3 := rfl
  have hr : List.range 3 = [0, 1, 2] := rfl
  have c1 : cumWeight uniformFilter.xi_k 1 = 3⁻¹ := by
    norm_num [uniformFilter, cumWeight, sumWeights]
  have c2 : cumWeight uniformFilter.xi_k 2 = 2 / 3 := by
    norm_num [uniformFilter, cumWeight, sumWeights]
  have c3 : cumWeight uniformFilter.xi_k 3 = 1 := by
    norm_num [uniformFilter, cumWeight, sumWeights]
  have b1 : u0 < 3⁻¹ := by linarith
  have b2 : ¬ (u0 < 0) := by linarith
  have b3 : u0 + 3⁻¹ < 2 / 3 := by linarith
  have b4 : ¬ (u0 + 2 / 3 < 3⁻¹) := by linarith
  have b5 : u0 + 2 / 3 < 1 := by linarith
  have e0 : systematicSelect uniformFilter.xi_k (u0 + ((0 : Nat) : ℚ) / ((3 : Nat) : ℚ)) =
      some ⟨0, 1/3⟩ := by
    simp [systematicSelect, hl, hr, List.find?_cons, hs, cumWeight_zero, c1, c2, c3, h0, b1]
    simp [uniformFilter]
  have e1 : systematicSelect uniformFilter.xi_k (u0 + ((1 : Nat) : ℚ) / ((3 : Nat) : ℚ)) =
      some ⟨1, 1/3⟩ := by
    simp [systematicSelect, hl, hr, List.find?_cons, hs, cumWeight_zero, c1, c2, c3, h0, b2, b3]
    simp [uniformFilter]
  have e2 : systematicSelect uniformFilter.xi_k (u0 + ((2 : Nat) : ℚ) / ((3 : Nat) : ℚ)) =
      some ⟨2, 1/3⟩ := by
    simp [systematicSelect, hl, hr, List.find?_cons, hs, cumWeight_zero, c1, c2, c3, h0, b2,
      b4, b5]
    simp [uniformFilter]
  simp only [systematicResample, hl, hr, List.filterMap_cons, e0, e1, e2, List.filterMap_nil]

/-- C3, as stated, fails: from three particles of weight 1/3 each, systematic
resampling returns the particles 0, 1, 2 whatever the single draw `u0` in
`[0, 1/3)` is, while `resample` returns the particles 0, 1, 0; and the engine
has advanced by three draws, not by one. -/
theorem resample_not_systematic :
    (¬ ∃ u0 : ℚ, 0 ≤ u0 ∧ u0 < 1 / 3 ∧
      (resample minstd_rand uniformFilter).xi_k = systematicResample uniformFilter.xi_k u0) ∧
    (resample minstd_rand uniformFilter).rand_gen ≠ minstd_next uniformFilter.rand_gen ∧
    (resample minstd_rand uniformFilter).rand_gen =
      minstd_next (minstd_next (minstd_next uniformFilter.rand_gen)) := by
  rw [resample_uniformFilter]
  refine ⟨?_, ?_, ?_⟩
  · rintro ⟨u0, h0, h1, h⟩
    rw [systematicResample_uniformFilter u0 h0 h1] at h
    simp at h
  · simp [uniformFilter, minstd_next, minstd_seed, minstd_modulus, minstd_multiplier]
  · simp [uniformFilter, minstd_next, minstd_seed, minstd_modulus, minstd_multiplier]

/-- C3 (amended). `resample` is multinomial resampling over the running weight
sums: with non-negative weights and every draw in `[0, sumWeights)`, a call takes
`N` draws, one for each output slot (the engine afterwards is the engine after
`N` draws), keeps `N` particles, and for every `k < N` the `k`-th output
particle is the input particle at an index `i` whose running-sum interval
`[w_0 + ... + w_(i-1), w_0 + ... + w_i)` contains the `k`-th draw. -/
theorem resample_multinomial {State R G : Type} [LinearOrderedField R]
    (rand : G → R → R × G) (f : ParticleFilter State R G)
    (hw : ∀ p ∈ f.xi_k, 0 ≤ p.w)
    (hr : ∀ k, k < f.xi_k.length →
      0 ≤ drawAt rand (sumWeights f.xi_k) f.rand_gen k ∧
      drawAt rand (sumWeights f.xi_k) f.rand_gen k < sumWeights f.xi_k) :
    (resample rand f).rand_gen =
        engineAfter rand (sumWeights f.xi_k) f.xi_k.length f.rand_gen ∧
    (resample rand f).xi_k.length = f.xi_k.length ∧
    ∀ k, k < f.xi_k.length → ∃ i, i < f.xi_k.length ∧
      (resample rand f).xi_k[k]? = f.xi_k[i]? ∧
      cumWeight f.xi_k i ≤ drawAt rand (sumWeights f.xi_k) f.rand_gen k ∧
      drawAt rand (sumWeights f.xi_k) f.rand_gen k < cumWeight f.xi_k (i + 1) := by
  have hsel : ∀ k, k < f.xi_k.length → ∃ i, i < f.xi_k.length ∧
      select (drawAt rand (sumWeights f.xi_k) f.rand_gen k) f.xi_k 0 = f.xi_k[i]? ∧
      0 + cumWeight f.xi_k i ≤ drawAt rand (sumWeights f.xi_k) f.rand_gen k ∧
      drawAt rand (sumWeights f.xi_k) f.rand_gen k < 0 + cumWeight f.xi_k (i + 1) := by
    intro k hk
    exact select_interval _ _ 0 hw (hr k hk).1 (by simpa using (hr k hk).2)
  have hsome : ∀ k, k < f.xi_k.length →
      (select (drawAt rand (sumWeights f.xi_k) f.rand_gen k) f.xi_k 0).isSome = true := by
    intro k hk
    obtain ⟨i, hi, he, _⟩ := hsel k hk
    rw [he, List.getElem?_eq_getElem hi]
    rfl
  obtain ⟨hlen, hget⟩ := filterMap_range_of_isSome _ _ hsome
  refine ⟨resample_rand_gen rand f, ?_, ?_⟩
  · rw [resample_xi_k]
    exact hlen
  · intro k hk
    obtain ⟨i, hi, he, h1, h2⟩ := hsel k hk
    refine ⟨i, hi, ?_, by simpa using h1, by simpa using h2⟩
    rw [resample_xi_k, hget k hk, he]

/-- C3 (amended), at three particles of weight 1/3 each and the engine seeded
with 42: the three draws lie in `[0, 1)`. -/
theorem resample_multinomial_witness :
    (∀ p ∈ uniformFilter.xi_k, (0 : ℚ) ≤ p.w) ∧
    (∀ k, k < uniformFilter.xi_k.length →
      0 ≤ drawAt minstd_rand (sumWeights uniformFilter.xi_k) uniformFilter.rand_gen k ∧
      drawAt minstd_rand (sumWeights uniformFilter.xi_k) uniformFilter.rand_gen k <
        sumWeights uniformFilter.xi_k) ∧
    (resample minstd_rand uniformFilter).xi_k.length = uniformFilter.xi_k.length ∧
    ∀ k, k < uniformFilter.xi_k.length → ∃ i, i < uniformFilter.xi_k.length ∧
      (resample minstd_rand uniformFilter).xi_k[k]? = uniformFilter.xi_k[i]? ∧
      cumWeight uniformFilter.xi_k i ≤
        drawAt minstd_rand (sumWeights uniformFilter.xi_k) uniformFilter.rand_gen k ∧
      drawAt minstd_rand (sumWeights uniformFilter.xi_k) uniformFilter.rand_gen k <
        cumWeight uniformFilter.xi_k (i + 1) := by
  have hw : ∀ p ∈ uniformFilter.xi_k, (0 : ℚ) ≤ p.w := by
    intro p hp
    simp [uniformFilter] at hp
    rcases hp with h | h | h <;> simp [h]
  have hs : sumWeights uniformFilter.xi_k = 1 := by norm_num [uniformFilter, sumWeights]
  have hr : ∀ k, k < uniformFilter.xi_k.length →
      0 ≤ drawAt minstd_rand (sumWeights uniformFilter.xi_k) uniformFilter.rand_gen k ∧
      drawAt minstd_rand (sumWeights uniformFilter.xi_k) uniformFilter.rand_gen k <
        sumWeights uniformFilter.xi_k := by
    intro k hk
    rw [hs]
    have hk3 : k < 3 := hk
    interval_cases k <;>
      norm_num [drawAt, engineAfter, minstd_rand, minstd_next, minstd_seed, minstd_modulus,
        minstd_multiplier, uniformFilter]
  exact ⟨hw, hr, (resample_multinomial minstd_rand uniformFilter hw hr).2⟩

section SelectionClaims

variable {State R G : Type} [LinearOrderedField R]

/-- With non-negative weights and a draw not below the starting sum, a
selected particle sits at the first index whose running sum exceeds the draw,
and its weight is positive. -/
theorem select_first (r : R) (xs : List (Particle State R)) (s : R) (q : Particle State R)
    (hw : ∀ p ∈ xs, 0 ≤ p.w) (hlo : s ≤ r) (h : select r xs s = some q) :
    ∃ i, i < xs.length ∧ xs[i]? = some q ∧ r < s + cumWeight xs (i + 1) ∧
      (∀ j, j < i → s + cumWeight xs (j + 1) ≤ r) ∧ 0 < q.w := by
  induction xs generalizing s with
  | nil => simp [select] at h
  | cons p xs ih =>
    by_cases hp : r < s + p.w
    · simp only [select, hp, if_true, Option.some.injEq] at h
      subst h
      refine ⟨0, by simp, by simp, ?_, ?_, ?_⟩
      · simpa [cumWeight_cons_succ, cumWeight_zero] using hp
      · intro j hj
        exact absurd hj (Nat.not_lt_zero j)
      · linarith
    · simp only [select, hp, if_false] at h
      have hlo2 : s + p.w ≤ r := not_lt.mp hp
      obtain ⟨i, hi, hget, hlt, hfirst, hpos⟩ :=
        ih (s + p.w) (fun a ha => hw a (List.mem_cons_of_mem _ ha)) hlo2 h
      refine ⟨i + 1, by simpa using hi, by simpa using hget, ?_, ?_, hpos⟩
      · rw [cumWeight_cons_succ]
        linarith
      · intro j hj
        cases j with
        | zero =>
          rw [cumWeight_cons_succ, cumWeight_zero]
          linarith
        | succ j =>
          rw [cumWeight_cons_succ]
          have := hfirst j (by omega)
          linarith

end SelectionClaims

/-- C13. With non-negative weights and non-negative draws, every particle
`resample` produces is a copy of an input particle: for one of the draws `r` it
is the input particle at the first index `i` whose running weight sum
`w_0 + ... + w_i` strictly exceeds `r`, and its weight is strictly positive, so
a particle of weight zero is never selected.  When moreover every draw is below
the total weight, every draw selects, and the particle in output slot `k` is
the one selected by the `k`-th draw. -/
theorem resample_selects_first_exceeding {State R G : Type} [LinearOrderedField R]
    (rand : G → R → R × G) (f : ParticleFilter State R G)
    (hw : ∀ p ∈ f.xi_k, 0 ≤ p.w)
    (hlo : ∀ k, k < f.xi_k.length → 0 ≤ drawAt rand (sumWeights f.xi_k) f.rand_gen k) :
    (∀ p ∈ (resample rand f).xi_k, ∃ k i, k < f.xi_k.length ∧ i < f.xi_k.length ∧
      f.xi_k[i]? = some p ∧
      drawAt rand (sumWeights f.xi_k) f.rand_gen k < cumWeight f.xi_k (i + 1) ∧
      (∀ j, j < i → cumWeight f.xi_k (j + 1) ≤ drawAt rand (sumWeights f.xi_k) f.rand_gen k) ∧
      0 < p.w) ∧
    (∀ p ∈ (resample rand f).xi_k, p ∈ f.xi_k ∧ 0 < p.w) ∧
    ((∀ k, k < f.xi_k.length →
        drawAt rand (sumWeights f.xi_k) f.rand_gen k < sumWeights f.xi_k) →
      (resample rand f).xi_k.length = f.xi_k.length ∧
      ∀ k, k < f.xi_k.length → ∃ i q, i < f.xi_k.length ∧ f.xi_k[i]? = some q ∧
        (resample rand f).xi_k[k]? = some q ∧
        drawAt rand (sumWeights f.xi_k) f.rand_gen k < cumWeight f.xi_k (i + 1) ∧
        (∀ j, j < i →
          cumWeight f.xi_k (j + 1) ≤ drawAt rand (sumWeights f.xi_k) f.rand_gen k) ∧
        0 < q.w) := by
  have hsel : ∀ k q, k < f.xi_k.length →
      select (drawAt rand (sumWeights f.xi_k) f.rand_gen k) f.xi_k 0 = some q →
      ∃ i, i < f.xi_k.length ∧ f.xi_k[i]? = some q ∧
        drawAt rand (sumWeights f.xi_k) f.rand_gen k < cumWeight f.xi_k (i + 1) ∧
        (∀ j, j < i →
          cumWeight f.xi_k (j + 1) ≤ drawAt rand (sumWeights f.xi_k) f.rand_gen k) ∧
        0 < q.w := by
    intro k q hk hq
    obtain ⟨i, hi, hget, hlt, hfirst, hpos⟩ := select_first _ _ 0 q hw (hlo k hk) hq
    refine ⟨i, hi, hget, by simpa using hlt, ?_, hpos⟩
    intro j hj
    simpa using hfirst j hj
  have hprod : ∀ p ∈ (resample rand f).xi_k, ∃ k i, k < f.xi_k.length ∧ i < f.xi_k.length ∧
      f.xi_k[i]? = some p ∧
      drawAt rand (sumWeights f.xi_k) f.rand_gen k < cumWeight f.xi_k (i + 1) ∧
      (∀ j, j < i → cumWeight f.xi_k (j + 1) ≤ drawAt rand (sumWeights f.xi_k) f.rand_gen k) ∧
      0 < p.w := by
    intro p hp
    rw [resample_xi_k, List.mem_filterMap] at hp
    obtain ⟨k, hk, hq⟩ := hp
    have hk2 : k < f.xi_k.length := List.mem_range.mp hk
    obtain ⟨i, hi, hrest⟩ := hsel k p hk2 hq
    exact ⟨k, i, hk2, hi, hrest⟩
  refine ⟨hprod, ?_, ?_⟩
  · intro p hp
    obtain ⟨k, i, _, _, _, _, _, hpos⟩ := hprod p hp
    exact ⟨resample_subset rand f p hp, hpos⟩
  · intro hhi
    have hsome : ∀ k, k < f.xi_k.length →
        (select (drawAt rand (sumWeights f.xi_k) f.rand_gen k) f.xi_k 0).isSome = true := by
      intro k hk
      obtain ⟨i, hi, he, _⟩ := select_interval _ f.xi_k 0 hw (hlo k hk)
        (by simpa using hhi k hk)
      rw [he, List.getElem?_eq_getElem hi]
      rfl
    obtain ⟨hlen, hget⟩ := filterMap_range_of_isSome _ _ hsome
    refine ⟨by rw [resample_xi_k]; exact hlen, ?_⟩
    intro k hk
    obtain ⟨q, hq⟩ := Option.isSome_iff_exists.mp (hsome k hk)
    obtain ⟨i, hi, hrest⟩ := hsel k q hk hq
    refine ⟨i, q, hi, hrest.1, ?_, hrest.2⟩
    rw [resample_xi_k, hget k hk, hq]

theorem gappedFilter_draws (k : Nat) (hk : k < gappedFilter.xi_k.length) :
    0 ≤ drawAt minstd_rand (sumWeights gappedFilter.xi_k) gappedFilter.rand_gen k ∧
    drawAt minstd_rand (sumWeights gappedFilter.xi_k) gappedFilter.rand_gen k <
      sumWeights gappedFilter.xi_k := by
  have hs : sumWeights gappedFilter.xi_k = 1 := by norm_num [gappedFilter, sumWeights]
  rw [hs]
  have hk3 : k < 3 := hk
  interval_cases k <;>
    norm_num [drawAt, engineAfter, minstd_rand, minstd_next, minstd_seed, minstd_modulus,
      minstd_multiplier, gappedFilter]

/-- C13, at two particles of weight 1/2 with a particle of weight zero between
them and the engine seeded with 42: the weights and the three draws are
non-negative, and every particle after `resample` is an input particle of
positive weight. -/
theorem resample_selects_first_exceeding_witness :
    (∀ p ∈ gappedFilter.xi_k, (0 : ℚ) ≤ p.w) ∧
    (∀ k, k < gappedFilter.xi_k.length →
      0 ≤ drawAt minstd_rand (sumWeights gappedFilter.xi_k) gappedFilter.rand_gen k) ∧
    (∀ p ∈ (resample minstd_rand gappedFilter).xi_k, p ∈ gappedFilter.xi_k ∧ 0 < p.w) := by
  have hw : ∀ p ∈ gappedFilter.xi_k, (0 : ℚ) ≤ p.w := by
    intro p hp
    simp [gappedFilter] at hp
    rcases hp with h | h | h <;> simp [h]
  have hlo : ∀ k, k < gappedFilter.xi_k.length →
      0 ≤ drawAt minstd_rand (sumWeights gappedFilter.xi_k) gappedFilter.rand_gen k :=
    fun k hk => (gappedFilter_draws k hk).1
  exact ⟨hw, hlo, (resample_selects_first_exceeding minstd_rand gappedFilter hw hlo).2.1⟩

section OrchestratorClaims

variable {R : Type} [LinearOrderedField R]

/-- C5. `update( bs, orientation )` advances `odPose`, updates the odometry and
calls `project` once.  It returns `true` exactly when the delta
`udPose⁻¹ · odPose` (with the advanced `odPose`) exceeds the measurement
threshold; then the filter's measurement update is called once, after
`project`, and `udPose` becomes `odPose`.  Otherwise it returns `false`, the
measurement update is not called and `udPose` is unchanged. -/
theorem update_measurement_gate (E : External R) (s : EmbodiedSlamFilter R E)
    (bs : E.BodyState) (orientation : E.Quaternion) :
    (EmbodiedSlamFilter.update E s bs orientation).2.odPose = advancedPose E s ∧
    ((EmbodiedSlamFilter.update E s bs orientation).1 = true ↔
      exceeds E s.eslamConfig.measurementThreshold
        (poseDelta E (advancedPose E s) s.udPose)) ∧
    (EmbodiedSlamFilter.update E s bs orientation).2.calls.count Call.project =
      s.calls.count Call.project + 1 ∧
    ((EmbodiedSlamFilter.update E s bs orientation).1 = true ∧
      (EmbodiedSlamFilter.update E s bs orientation).2.filter =
        E.filterUpdate (E.project s.filter bs orientation) bs orientation ∧
      (EmbodiedSlamFilter.update E s bs orientation).2.udPose = advancedPose E s ∧
      (EmbodiedSlamFilter.update E s bs orientation).2.calls =
        s.calls ++ [Call.odometryUpdate, Call.project, Call.filterUpdate] ∧
      (EmbodiedSlamFilter.update E s bs orientation).2.calls.count Call.filterUpdate =
        s.calls.count Call.filterUpdate + 1
     ∨
     (EmbodiedSlamFilter.update E s bs orientation).1 = false ∧
      (EmbodiedSlamFilter.update E s bs orientation).2.filter =
        E.project s.filter bs orientation ∧
      (EmbodiedSlamFilter.update E s bs orientation).2.udPose = s.udPose ∧
      (EmbodiedSlamFilter.update E s bs orientation).2.calls =
        s.calls ++ [Call.odometryUpdate, Call.project] ∧
      (EmbodiedSlamFilter.update E s bs orientation).2.calls.count Call.filterUpdate =
        s.calls.count Call.filterUpdate) := by
  by_cases h : E.angle (E.mul (E.inverse (E.toTransform s.udPose))
        (E.toTransform (advancedPose E s))) > s.eslamConfig.measurementThreshold.angle ∨
      E.norm (E.mul (E.inverse (E.toTransform s.udPose))
        (E.toTransform (advancedPose E s))) > s.eslamConfig.measurementThreshold.distance
  · have hu : EmbodiedSlamFilter.update E s bs orientation =
        (true, { s with odPose := advancedPose E s,
                        odometry := E.odometryUpdate s.odometry bs orientation,
                        filter := E.filterUpdate (E.project s.filter bs orientation) bs orientation,
                        udPose := advancedPose E s,
                        calls := s.calls ++ [Call.odometryUpdate, Call.project] ++
                          [Call.filterUpdate] }) := by
      simp only [EmbodiedSlamFilter.update, advancedPose] at h ⊢
      rw [if_pos h]
    rw [hu]
    refine ⟨rfl, ?_, ?_, Or.inl ⟨rfl, rfl, rfl, ?_, ?_⟩⟩
    · simp only [exceeds, poseDelta, true_iff]
      exact h.symm
    · simp [List.count_append, List.count_cons]
    · simp
    · simp [List.count_append, List.count_cons]
  · have hu : EmbodiedSlamFilter.update E s bs orientation =
        (false, { s with odPose := advancedPose E s,
                         odometry := E.odometryUpdate s.odometry bs orientation,
                         filter := E.project s.filter bs orientation,
                         calls := s.calls ++ [Call.odometryUpdate, Call.project] }) := by
      simp only [EmbodiedSlamFilter.update, advancedPose] at h ⊢
      rw [if_neg h]
    rw [hu]
    refine ⟨rfl, ?_, ?_, Or.inr ⟨rfl, rfl, rfl, rfl, ?_⟩⟩
    · simp only [exceeds, poseDelta]
      constructor
      · intro hf
        exact absurd hf (by simp)
      · intro he
        exact absurd he.symm h
    · simp [List.count_append, List.count_cons]
    · simp [List.count_append, List.count_cons]

/-- C7. `init` fails, with the message "feature broken", exactly when
`useSharedMap` is set and the environment already holds a multi-level surface
grid; it completes exactly when `useSharedMap` is not set or the environment
holds no such grid. -/
theorem init_feature_broken_iff (E : External R) (s : EmbodiedSlamFilter R E)
    (env : E.Environment) (pose : E.Pose) (useSharedMap : Bool) :
    (EmbodiedSlamFilter.init E s env pose useSharedMap = Except.error "feature broken" ↔
      (useSharedMap = true ∧ E.getItemsGrid env ≠ [])) ∧
    ((∃ r, EmbodiedSlamFilter.init E s env pose useSharedMap = Except.ok r) ↔
      (useSharedMap = false ∨ E.getItemsGrid env = [])) := by
  cases useSharedMap with
  | false =>
    refine ⟨⟨fun h => ?_, fun h => ?_⟩, ⟨fun _ => Or.inl rfl, fun _ => ⟨_, rfl⟩⟩⟩
    · simp [EmbodiedSlamFilter.init] at h
    · exact absurd h.1 (by simp)
  | true =>
    cases hg : E.getItemsGrid env with
    | nil =>
      refine ⟨⟨fun h => ?_, fun h => ?_⟩, ⟨fun _ => Or.inr rfl, fun _ => ?_⟩⟩
      · simp [EmbodiedSlamFilter.init, hg] at h
      · exact absurd rfl h.2
      · simp only [EmbodiedSlamFilter.init, hg]
        exact ⟨_, rfl⟩
    | cons g gs =>
      refine ⟨⟨fun _ => ⟨rfl, by simp⟩, fun _ => ?_⟩, ⟨fun h => ?_, fun h => ?_⟩⟩
      · simp [EmbodiedSlamFilter.init, hg]
      · obtain ⟨r, hr⟩ := h
        simp [EmbodiedSlamFilter.init, hg] at hr
      · rcases h with h | h
        · exact absurd h (by simp)
        · exact absurd h (by simp)

/-- C8. The default-constructed configuration: seed 42, 250 particles, minimum
effective number 50, initial error 0.1, weighting factor 0.1, measurement error
0.1, discount factor 0.9, measurement threshold (0.1, 10π/180) and mapping
threshold (0.02, 5π/180). -/
theorem configuration_defaults (M_PI : R) :
    (Configuration.new M_PI).seed = 42 ∧
    (Configuration.new M_PI).particleCount = 250 ∧
    (Configuration.new M_PI).minEffective = 50 ∧
    (Configuration.new M_PI).initialError = 1 / 10 ∧
    (Configuration.new M_PI).weightingFactor = 1 / 10 ∧
    (Configuration.new M_PI).measurementError = 1 / 10 ∧
    (Configuration.new M_PI).discountFactor = 9 / 10 ∧
    (Configuration.new M_PI).measurementThreshold.distance = 1 / 10 ∧
    (Configuration.new M_PI).measurementThreshold.angle = 10 * M_PI / 180 ∧
    (Configuration.new M_PI).mappingThreshold.distance = 2 / 100 ∧
    (Configuration.new M_PI).mappingThreshold.angle = 5 * M_PI / 180 := by
  refine ⟨rfl, rfl, rfl, ?_, ?_, ?_, ?_, ?_, ?_, ?_, ?_⟩ <;>
    norm_num [Configuration.new]

/-- The loop over the patches of one scan cell appends one measurement patch
for every scan patch, at the target position. -/
theorem probeCell_patches (E : External R) (pgrid : E.Grid) (zPos zSigma : R)
    (update_idx : Nat) (pos : Position) (cits : List (SurfacePatch R)) (acc : Probe R) :
    (probeCell E pgrid zPos zSigma update_idx pos cits acc).patches =
      acc.patches ++
        cits.map (fun cit => (pos, measurementPatch E cit zPos zSigma update_idx)) := by
  induction cits generalizing acc with
  | nil => simp [probeCell]
  | cons cit rest ih =>
    simp only [probeCell]
    split
    · split <;> simp [ih]
    · simp [ih]

/-- The loop over the touched cells appends what each cell contributes. -/
theorem probe_patches (E : External R) (scanMap pgrid : E.Grid) (C_s2p : E.Transform)
    (zPos zSigma : R) (update_idx : Nat) (cells : List Position) (acc : Probe R) :
    (probe E scanMap pgrid C_s2p zPos zSigma update_idx cells acc).patches =
      acc.patches ++
        cells.flatMap (cellMeasurements E scanMap pgrid C_s2p zPos zSigma update_idx) := by
  induction cells generalizing acc with
  | nil => simp [probe]
  | cons it rest ih =>
    simp only [probe, List.flatMap_cons, cellMeasurements]
    cases h : targetCell E scanMap pgrid C_s2p it with
    | none => simp [ih]
    | some mn =>
      obtain ⟨m, n⟩ := mn
      simp [ih, probeCell_patches]

/-- The merge loop calls `updateCell` once for every measurement patch. -/
theorem merge_calls (E : External R) (i : Nat) (delta : R)
    (patches : List (Position × SurfacePatch R)) (acc : E.Grid × List Call) :
    (merge E i delta patches acc).2 =
      acc.2 ++ patches.map (fun pp => Call.updateCell i pp.1.m pp.1.n) := by
  induction patches generalizing acc with
  | nil => simp [merge]
  | cons pp rest ih =>
    obtain ⟨pos, pa⟩ := pp
    simp [merge, ih]

theorem recentre_map_index (E : External R) (update_idx i j : Nat)
    (p : PoseParticle R E.Map) :
    (recentre E update_idx i p).1 = (recentre E update_idx j p).1 := by
  simp only [recentre]
  split <;> rfl

/-- With an exact square root, the deviation of a measurement patch is at
least the deviation of the scan patch it was built from. -/
theorem stdev_le_measurementPatch (E : External R) (cit : SurfacePatch R) (zPos zSigma : R)
    (update_idx : Nat) (hsqrt : ∀ x, 0 ≤ x → 0 ≤ E.sqrt x ∧ E.sqrt x * E.sqrt x = x) :
    cit.stdev ≤ (measurementPatch E cit zPos zSigma update_idx).stdev := by
  have hnn : 0 ≤ cit.stdev * cit.stdev + zSigma * zSigma :=
    add_nonneg (mul_self_nonneg _) (mul_self_nonneg _)
  obtain ⟨h0, h1⟩ := hsqrt _ hnn
  simp only [measurementPatch, sq]
  by_contra hlt
  have hlt2 : E.sqrt (cit.stdev * cit.stdev + zSigma * zSigma) < cit.stdev := not_le.mp hlt
  have hmul : E.sqrt (cit.stdev * cit.stdev + zSigma * zSigma) *
      E.sqrt (cit.stdev * cit.stdev + zSigma * zSigma) < cit.stdev * cit.stdev :=
    mul_self_lt_mul_self h0 hlt2
  have hz : 0 ≤ zSigma * zSigma := mul_self_nonneg _
  linarith

/-- C10. In the probe phase of the mapping step of a particle, the collected
patches are, cell by cell in the order of the touched cells, one measurement
patch for every scan patch of every touched cell in range, at the target cell.
The measurement patch of a scan patch has mean `mean + zPos`, deviation
`sqrt( stdev² + zSigma² )` (with an exact square root, at least `stdev`),
`update_idx` the current mapping index, and the horizontal flag and thickness of
the scan patch.  These are the patches the step commits, and the scan grid
itself stays as the projection of the scan left it. -/
theorem probe_measurement_patches (E : External R) (s : EmbodiedSlamFilter R E)
    (orientation : E.Quaternion) (scan : E.LaserScan) (scanMap : E.Grid)
    (update_idx i : Nat) (p : PoseParticle R E.Map)
    (hsqrt : ∀ x, 0 ≤ x → 0 ≤ E.sqrt x ∧ E.sqrt x * E.sqrt x = x) :
    (probe E scanMap (targetGrid E update_idx p) (scanToParticle E scanMap update_idx p)
        p.zPos p.zSigma update_idx (E.cells scanMap) ⟨[], 0, 0⟩).patches =
      (E.cells scanMap).flatMap (cellMeasurements E scanMap (targetGrid E update_idx p)
        (scanToParticle E scanMap update_idx p) p.zPos p.zSigma update_idx) ∧
    (∀ it m n cit, it ∈ E.cells scanMap →
      targetCell E scanMap (targetGrid E update_idx p)
        (scanToParticle E scanMap update_idx p) it = some (m, n) →
      cit ∈ E.cellPatches scanMap it.m it.n →
      ((⟨m, n⟩ : Position), measurementPatch E cit p.zPos p.zSigma update_idx) ∈
        (probe E scanMap (targetGrid E update_idx p) (scanToParticle E scanMap update_idx p)
          p.zPos p.zSigma update_idx (E.cells scanMap) ⟨[], 0, 0⟩).patches) ∧
    (∀ cit : SurfacePatch R,
      (measurementPatch E cit p.zPos p.zSigma update_idx).mean = cit.mean + p.zPos ∧
      (measurementPatch E cit p.zPos p.zSigma update_idx).stdev =
        E.sqrt (cit.stdev ^ 2 + p.zSigma ^ 2) ∧
      cit.stdev ≤ (measurementPatch E cit p.zPos p.zSigma update_idx).stdev ∧
      (measurementPatch E cit p.zPos p.zSigma update_idx).update_idx = update_idx ∧
      (measurementPatch E cit p.zPos p.zSigma update_idx).horizontal = cit.horizontal ∧
      (measurementPatch E cit p.zPos p.zSigma update_idx).thickness = cit.thickness) ∧
    (mapParticle E scanMap update_idx i p).2 =
      (recentre E update_idx i p).2 ++
        (probe E scanMap (targetGrid E update_idx p) (scanToParticle E scanMap update_idx p)
          p.zPos p.zSigma update_idx (E.cells scanMap) ⟨[], 0, 0⟩).patches.map
          (fun pp => Call.updateCell i pp.1.m pp.1.n) ∧
    (EmbodiedSlamFilter.map E { s with sharedMap := none } orientation scan).scanMap =
      projectedScanMap E { s with pcNode := E.scanMeshing scan } orientation ∧
    (EmbodiedSlamFilter.map E { s with sharedMap := none } orientation scan).filter =
      E.setParticles s.filter
        (mapParticles E (projectedScanMap E { s with pcNode := E.scanMeshing scan } orientation)
          s.update_idx 0 (E.getParticles s.filter)).1 := by
  have hclosed := probe_patches E scanMap (targetGrid E update_idx p)
    (scanToParticle E scanMap update_idx p) p.zPos p.zSigma update_idx (E.cells scanMap)
    ⟨[], 0, 0⟩
  rw [List.nil_append] at hclosed
  refine ⟨hclosed, ?_, ?_, ?_, rfl, rfl⟩
  · intro it m n cit hit htc hcit
    rw [hclosed, List.mem_flatMap]
    refine ⟨it, hit, ?_⟩
    simp only [cellMeasurements, htc, List.mem_map]
    exact ⟨cit, hcit, rfl⟩
  · intro cit
    refine ⟨rfl, ?_, stdev_le_measurementPatch E cit p.zPos p.zSigma update_idx hsqrt,
      rfl, rfl, rfl⟩
    simp [measurementPatch, sq, pow_two]
  · simp only [mapParticle, merge_calls, targetGrid, scanToParticle,
      recentre_map_index E update_idx i 0 p]

/-- C10, over the reals with the real square root: the scan patch of mean 1 and
deviation 3 and a particle of height 2 and height deviation 4. -/
theorem probe_measurement_patches_witness :
    (∀ x : ℝ, 0 ≤ x →
      0 ≤ (simpleExternal ℝ Real.sqrt Real.pi).sqrt x ∧
      (simpleExternal ℝ Real.sqrt Real.pi).sqrt x * (simpleExternal ℝ Real.sqrt Real.pi).sqrt x
        = x) ∧
    (∀ cit : SurfacePatch ℝ,
      (measurementPatch (simpleExternal ℝ Real.sqrt Real.pi) cit (sampleParticle ℝ).zPos
        (sampleParticle ℝ).zSigma 7).mean = cit.mean + (sampleParticle ℝ).zPos ∧
      (measurementPatch (simpleExternal ℝ Real.sqrt Real.pi) cit (sampleParticle ℝ).zPos
        (sampleParticle ℝ).zSigma 7).stdev =
        (simpleExternal ℝ Real.sqrt Real.pi).sqrt
          (cit.stdev ^ 2 + (sampleParticle ℝ).zSigma ^ 2) ∧
      cit.stdev ≤ (measurementPatch (simpleExternal ℝ Real.sqrt Real.pi) cit
        (sampleParticle ℝ).zPos (sampleParticle ℝ).zSigma 7).stdev ∧
      (measurementPatch (simpleExternal ℝ Real.sqrt Real.pi) cit (sampleParticle ℝ).zPos
        (sampleParticle ℝ).zSigma 7).update_idx = 7 ∧
      (measurementPatch (simpleExternal ℝ Real.sqrt Real.pi) cit (sampleParticle ℝ).zPos
        (sampleParticle ℝ).zSigma 7).horizontal = cit.horizontal ∧
      (measurementPatch (simpleExternal ℝ Real.sqrt Real.pi) cit (sampleParticle ℝ).zPos
        (sampleParticle ℝ).zSigma 7).thickness = cit.thickness) :=
  ⟨fun x hx => ⟨Real.sqrt_nonneg x, Real.mul_self_sqrt hx⟩,
    (probe_measurement_patches (simpleExternal ℝ Real.sqrt Real.pi)
      ⟨Configuration.new Real.pi, (0, 0), [sampleParticle ℝ], none, (0, 0), (0, 0), (0, 0),
        SimpleGrid.empty (0, 0), SimpleGrid.empty (0, 0), 7, []⟩
      () (sampleScanMap ℝ) (sampleScanMap ℝ) 7 0 (sampleParticle ℝ)
      (fun x hx => ⟨Real.sqrt_nonneg x, Real.mul_self_sqrt hx⟩)).2.2.1⟩

/-- The loop over the patches of one scan cell leaves the sums `d1` and `d2`
as they are: the test of line 235 ends in `&& false`. -/
theorem probeCell_sums (E : External R) (pgrid : E.Grid) (zPos zSigma : R)
    (update_idx : Nat) (pos : Position) (cits : List (SurfacePatch R)) (acc : Probe R) :
    (probeCell E pgrid zPos zSigma update_idx pos cits acc).d1 = acc.d1 ∧
      (probeCell E pgrid zPos zSigma update_idx pos cits acc).d2 = acc.d2 := by
  induction cits generalizing acc with
  | nil => exact ⟨rfl, rfl⟩
  | cons cit rest ih =>
    simp only [probeCell]
    split
    · split
      · rename_i h
        simp at h
      · exact ih _
    · exact ih _

/-- The loop over the touched cells leaves the sums `d1` and `d2` as they
are. -/
theorem probe_sums (E : External R) (scanMap pgrid : E.Grid) (C_s2p : E.Transform)
    (zPos zSigma : R) (update_idx : Nat) (cells : List Position) (acc : Probe R) :
    (probe E scanMap pgrid C_s2p zPos zSigma update_idx cells acc).d1 = acc.d1 ∧
      (probe E scanMap pgrid C_s2p zPos zSigma update_idx cells acc).d2 = acc.d2 := by
  induction cells generalizing acc with
  | nil => exact ⟨rfl, rfl⟩
  | cons it rest ih =>
    cases h : targetCell E scanMap pgrid C_s2p it with
    | none =>
      simp only [probe, h]
      exact ih acc
    | some mn =>
      obtain ⟨m, n⟩ := mn
      simp only [probe, h]
      obtain ⟨h1, h2⟩ := ih (probeCell E pgrid zPos zSigma update_idx ⟨m, n⟩
        (E.cellPatches scanMap it.m it.n) acc)
      obtain ⟨c1, c2⟩ := probeCell_sums E pgrid zPos zSigma update_idx ⟨m, n⟩
        (E.cellPatches scanMap it.m it.n) acc
      exact ⟨h1.trans c1, h2.trans c2⟩

/-- With `delta = 0` the merge loop commits the measurement patches as they
are. -/
theorem merge_zero_grid (E : External R) (i : Nat)
    (patches : List (Position × SurfacePatch R)) (acc : E.Grid × List Call) :
    (merge E i 0 patches acc).1 = commit E acc.1 patches := by
  induction patches generalizing acc with
  | nil => rfl
  | cons pp rest ih =>
    obtain ⟨pos, pa⟩ := pp
    simp only [merge, commit, List.foldl_cons, add_zero]
    rw [ih]
    rfl

/-- The body of the particle loop, with the probe loop's sums at 0: no Kalman
update, `delta = 0`, and the merge of the probed patches. -/
theorem mapParticle_eq (E : External R) (scanMap : E.Grid) (update_idx i : Nat)
    (p : PoseParticle R E.Map) :
    mapParticle E scanMap update_idx i p =
      ({ p with grid := (E.setActiveGrid (recentre E update_idx i p).1
          (merge E i 0
            (probe E scanMap (targetGrid E update_idx p) (scanToParticle E scanMap update_idx p)
              p.zPos p.zSigma update_idx (E.cells scanMap) ⟨[], 0, 0⟩).patches
            (targetGrid E update_idx p, (recentre E update_idx i p).2)).1) },
        (merge E i 0
          (probe E scanMap (targetGrid E update_idx p) (scanToParticle E scanMap update_idx p)
            p.zPos p.zSigma update_idx (E.cells scanMap) ⟨[], 0, 0⟩).patches
          (targetGrid E update_idx p, (recentre E update_idx i p).2)).2) := by
  have hd := (probe_sums E scanMap (targetGrid E update_idx p)
    (scanToParticle E scanMap update_idx p) p.zPos p.zSigma update_idx (E.cells scanMap)
    ⟨[], 0, 0⟩).2
  simp only [targetGrid, scanToParticle, recentre_map_index E update_idx 0 i p] at hd ⊢
  simp only [mapParticle, hd, gt_iff_lt, lt_self_iff_false, if_false, sub_self]

theorem probeCell_withKalman (E : External R) (k : R → R → R → R → R × R) (pgrid : E.Grid)
    (zPos zSigma : R) (update_idx : Nat) (pos : Position) (cits : List (SurfacePatch R))
    (acc : Probe R) :
    probeCell (withKalman E k) pgrid zPos zSigma update_idx pos cits acc =
      probeCell E pgrid zPos zSigma update_idx pos cits acc := by
  induction cits generalizing acc with
  | nil => rfl
  | cons cit rest ih =>
    simp only [probeCell, ih]
    rfl

theorem probe_withKalman (E : External R) (k : R → R → R → R → R × R) (scanMap pgrid : E.Grid)
    (C_s2p : E.Transform) (zPos zSigma : R) (update_idx : Nat) (cells : List Position)
    (acc : Probe R) :
    probe (withKalman E k) scanMap pgrid C_s2p zPos zSigma update_idx cells acc =
      probe E scanMap pgrid C_s2p zPos zSigma update_idx cells acc := by
  induction cells generalizing acc with
  | nil => rfl
  | cons it rest ih =>
    simp only [probe, ih, probeCell_withKalman]
    rfl

theorem merge_withKalman (E : External R) (k : R → R → R → R → R × R) (i : Nat) (delta : R)
    (patches : List (Position × SurfacePatch R)) (acc : E.Grid × List Call) :
    merge (withKalman E k) i delta patches acc = merge E i delta patches acc := by
  induction patches generalizing acc with
  | nil => rfl
  | cons pp rest ih =>
    obtain ⟨pos, pa⟩ := pp
    simp only [merge, ih]
    rfl

/-- The body of the particle loop does not depend on `kalman_update`. -/
theorem mapParticle_withKalman (E : External R) (k : R → R → R → R → R × R)
    (scanMap : E.Grid) (update_idx i : Nat) (p : PoseParticle R E.Map) :
    mapParticle (withKalman E k) scanMap update_idx i p =
      mapParticle E scanMap update_idx i p := by
  have ht : targetGrid (withKalman E k) update_idx p = targetGrid E update_idx p := rfl
  have hs : scanToParticle (withKalman E k) scanMap update_idx p =
      scanToParticle E scanMap update_idx p := rfl
  have hr : recentre (withKalman E k) update_idx i p = recentre E update_idx i p := rfl
  rw [mapParticle_eq (withKalman E k), mapParticle_eq E, ht, hs, hr, probe_withKalman,
    merge_withKalman]
  rfl

/-- The loop over the particles leaves position, orientation, height belief
and weight of every particle as they are. -/
theorem mapParticles_frame (E : External R) (scanMap : E.Grid) (update_idx i : Nat)
    (ps : List (PoseParticle R E.Map)) :
    (mapParticles E scanMap update_idx i ps).1.map
        (fun q => (q.position, q.orientation, q.zPos, q.zSigma, q.w)) =
      ps.map (fun q => (q.position, q.orientation, q.zPos, q.zSigma, q.w)) := by
  induction ps generalizing i with
  | nil => rfl
  | cons p rest ih =>
    simp only [mapParticles, List.map_cons, ih, mapParticle_eq]

/-- C11. Height refinement is off in the mapping step of a particle: the sums
`d1` and `d2` of the probe loop stay 0, so the guard `d2 > 0` of the Kalman
update is false and the step is the same whatever `kalman_update` is; the
particle keeps its `zPos`, `zSigma`, position, orientation and weight;
`delta`, the change of `zPos`, is 0; the grid of the particle afterwards is its
target grid with the probed patches committed unchanged, and every one of
these has mean `scan mean + zPos`.  The same holds along the loop over all
particles. -/
theorem mapParticle_no_height_refinement (E : External R) (scanMap : E.Grid)
    (update_idx i : Nat) (p : PoseParticle R E.Map) (k : R → R → R → R → R × R) :
    (probe E scanMap (targetGrid E update_idx p) (scanToParticle E scanMap update_idx p)
      p.zPos p.zSigma update_idx (E.cells scanMap) ⟨[], 0, 0⟩).d1 = 0 ∧
    (probe E scanMap (targetGrid E update_idx p) (scanToParticle E scanMap update_idx p)
      p.zPos p.zSigma update_idx (E.cells scanMap) ⟨[], 0, 0⟩).d2 = 0 ∧
    ¬ ((probe E scanMap (targetGrid E update_idx p) (scanToParticle E scanMap update_idx p)
      p.zPos p.zSigma update_idx (E.cells scanMap) ⟨[], 0, 0⟩).d2 > 0) ∧
    mapParticle (withKalman E k) scanMap update_idx i p =
      mapParticle E scanMap update_idx i p ∧
    (mapParticle E scanMap update_idx i p).1.zPos = p.zPos ∧
    (mapParticle E scanMap update_idx i p).1.zSigma = p.zSigma ∧
    (mapParticle E scanMap update_idx i p).1.position = p.position ∧
    (mapParticle E scanMap update_idx i p).1.orientation = p.orientation ∧
    (mapParticle E scanMap update_idx i p).1.w = p.w ∧
    (mapParticle E scanMap update_idx i p).1.zPos - p.zPos = 0 ∧
    (mapParticle E scanMap update_idx i p).1.grid =
      E.setActiveGrid (recentre E update_idx i p).1
        (commit E (targetGrid E update_idx p)
          (probe E scanMap (targetGrid E update_idx p) (scanToParticle E scanMap update_idx p)
            p.zPos p.zSigma update_idx (E.cells scanMap) ⟨[], 0, 0⟩).patches) ∧
    (∀ pp ∈ (probe E scanMap (targetGrid E update_idx p)
        (scanToParticle E scanMap update_idx p) p.zPos p.zSigma update_idx (E.cells scanMap)
        ⟨[], 0, 0⟩).patches,
      ∃ it ∈ E.cells scanMap, ∃ cit ∈ E.cellPatches scanMap it.m it.n,
        pp.2.mean = cit.mean + p.zPos ∧
        pp.2 = measurementPatch E cit p.zPos p.zSigma update_idx) ∧
    (∀ ps : List (PoseParticle R E.Map),
      (mapParticles E scanMap update_idx i ps).1.map
          (fun q => (q.position, q.orientation, q.zPos, q.zSigma, q.w)) =
        ps.map (fun q => (q.position, q.orientation, q.zPos, q.zSigma, q.w))) := by
  obtain ⟨hd1, hd2⟩ := probe_sums E scanMap (targetGrid E update_idx p)
    (scanToParticle E scanMap update_idx p) p.zPos p.zSigma update_idx (E.cells scanMap)
    ⟨[], 0, 0⟩
  refine ⟨hd1, hd2, ?_, mapParticle_withKalman E k scanMap update_idx i p, ?_, ?_, ?_, ?_, ?_,
    ?_, ?_, ?_, mapParticles_frame E scanMap update_idx i⟩
  · rw [hd2]
    exact lt_irrefl 0
  · rw [mapParticle_eq]
  · rw [mapParticle_eq]
  · rw [mapParticle_eq]
  · rw [mapParticle_eq]
  · rw [mapParticle_eq]
  · rw [mapParticle_eq]
    exact sub_self _
  · rw [mapParticle_eq, merge_zero_grid]
  · intro pp hpp
    rw [probe_patches, List.nil_append, List.mem_flatMap] at hpp
    obtain ⟨it, hit, hin⟩ := hpp
    refine ⟨it, hit, ?_⟩
    cases htc : targetCell E scanMap (targetGrid E update_idx p)
        (scanToParticle E scanMap update_idx p) it with
    | none => simp [cellMeasurements, htc] at hin
    | some mn =>
      obtain ⟨m, n⟩ := mn
      simp only [cellMeasurements, htc, List.mem_map] at hin
      obtain ⟨cit, hcit, rfl⟩ := hin
      exact ⟨cit, hcit, rfl, rfl⟩

end OrchestratorClaims

end eslam
